import Mathlib

set_option maxRecDepth 100000

/-!
Shallow embedding of the retrieval core of the RAG backend
(`Backend/document_processor.py` and `Backend/rag_chatbot.py`).

Python strings are modelled as `List Char` where index arithmetic matters
(the chunker) and as Lean `String` elsewhere.  Python integers are `Int`
(the chunker cursor can go negative), list indices and counts are `Nat`,
and float scores are modelled as exact rationals `ℚ` (the only float
arithmetic in the core is `1 - m / k` on small integers, whose ordering
and zero tests agree with the exact rational values).  External
collaborators (the Gemini embedding service, the Chroma vector store and
the file system) are modelled as explicit parameters: fallible calls
return `Option` values and a `Bool` per collection models a raised
exception from any store operation on it, mirroring the `try/except`
blocks in the source.  The chunking `while` loop of `chunk_text` is
modelled with explicit fuel because the source loop does not always
terminate.
-/

/-! ## Python string primitives -/

/-- Python strings for the chunker: plain lists of characters. -/
abbrev PyStr := List Char

/-- Normalise a Python slice bound for a string of length `n`:
negative indices count from the end, and bounds are clamped to `[0, n]`. -/
def pyIdx (n : Nat) (i : Int) : Nat :=
  if i < 0 then ((n : Int) + i).toNat else min i.toNat n

/-- Python slice `s[a:b]` with full negative-index and clamping semantics. -/
def pySlice (s : PyStr) (a b : Int) : PyStr :=
  let n := s.length
  (s.drop (pyIdx n a)).take (pyIdx n b - pyIdx n a)

/-- Helper for `rfind`: scan the list keeping the last index where `c` occurs. -/
def rfindAux (c : Char) : PyStr → Nat → Int → Int
  | [], _, acc => acc
  | x :: xs, i, acc => rfindAux c xs (i + 1) (if x = c then (i : Int) else acc)

/-- Python `s.rfind(c)`: highest index of `c` in `s`, or `-1` if absent. -/
def rfind (s : PyStr) (c : Char) : Int :=
  rfindAux c s 0 (-1)

/-- Python `s.strip()`: drop leading and trailing whitespace. -/
def pyStrip (s : PyStr) : PyStr :=
  (((s.dropWhile Char.isWhitespace).reverse.dropWhile Char.isWhitespace)).reverse

/-- Python `s.lower()` (ASCII case folding, which covers all corpus vocabulary). -/
def pyLower (s : String) : String :=
  String.mk (s.data.map Char.toLower)

/-- Python `s.endswith(suffix)`. -/
def pyEndsWith (s suffix : String) : Bool :=
  suffix.data.reverse.isPrefixOf s.data.reverse

/-- Helper for Python `s.split()`: split a character list at whitespace runs,
accumulating the current token in reverse; empty tokens are not produced. -/
def wsTokens : List Char → List Char → List (List Char)
  | [], acc => if acc = [] then [] else [acc.reverse]
  | c :: cs, acc =>
    if c.isWhitespace then
      (if acc = [] then wsTokens cs [] else acc.reverse :: wsTokens cs [])
    else wsTokens cs (c :: acc)

/-- Python `s.split()` with no argument: whitespace-separated tokens, with
no empty tokens. -/
def pySplit (s : String) : List String :=
  (wsTokens s.data []).map String.mk

/-- Executable substring test on character lists: `needle` occurs contiguously
in `hay`.  Models the Python `needle in hay` test on strings. -/
def isSubL (needle hay : List Char) : Bool :=
  hay.tails.any (fun t => needle.isPrefixOf t)

/-- Python `needle in hay` on strings. -/
def pyContains (needle hay : String) : Bool :=
  isSubL needle.toList hay.toList

/-- Python `query.split()` followed by the `len(word) > 2` keyword filter of
`keyword_search` (splitting on whitespace discards empty tokens, and the
length filter removes them in any case). -/
def kwTokens (query : String) : List String :=
  (pySplit (pyLower query)).filter (fun w => 2 < w.length)

/-! ## Chunker (`DocumentProcessor.chunk_text`) -/

/-- Loop state of `chunk_text`: the cursor `start` (a Python `int`, which the
source lets go negative) and the accumulated chunk list. -/
structure ChunkState where
  start : Int
  chunks : List PyStr
deriving DecidableEq

/-- One iteration of the `while` loop body of `chunk_text`, translated
line by line from the source:
`end = min(start + chunk_size, text_length)`; take `text[start:end]`;
if the window stops before the end of the text, look for the last `'.'` or
newline in the window (an index **relative to the window**) and, when that
relative index exceeds `start + chunk_size // 2`, re-slice the chunk as
`text[start:break_point + 1]` and set `end = break_point + 1`; strip the
chunk; keep it only if longer than 100 characters; finally
`start = end - overlap`. -/
def chunkStep (text : PyStr) (chunkSize overlap : Nat) (st : ChunkState) : ChunkState :=
  let textLength : Int := text.length
  let end0 : Int := st.start + chunkSize
  let end1 : Int := if end0 > textLength then textLength else end0
  let chunk0 := pySlice text st.start end1
  let snapped : PyStr × Int :=
    if end1 < textLength then
      let lastPeriod := rfind chunk0 '.'
      let lastNewline := rfind chunk0 '\n'
      let breakPoint := max lastPeriod lastNewline
      if breakPoint > st.start + (chunkSize / 2 : Nat) then
        (pySlice text st.start (breakPoint + 1), breakPoint + 1)
      else (chunk0, end1)
    else (chunk0, end1)
  let chunk2 := pyStrip snapped.1
  { start := snapped.2 - overlap
    chunks := if 100 < chunk2.length then st.chunks ++ [chunk2] else st.chunks }

/-- The loop guard of `chunk_text`:
`start < text_length and len(chunks) < max_chunks`. -/
def chunkCond (textLen maxChunks : Nat) (st : ChunkState) : Prop :=
  st.start < (textLen : Int) ∧ st.chunks.length < maxChunks

instance (textLen maxChunks : Nat) (st : ChunkState) :
    Decidable (chunkCond textLen maxChunks st) := by
  unfold chunkCond; infer_instance

/-- The `while` loop of `chunk_text`, with explicit fuel: `none` means the
loop did not finish within `fuel` iterations. -/
def chunkLoop (text : PyStr) (cs ov mc : Nat) : Nat → ChunkState → Option ChunkState
  | 0, st => if chunkCond text.length mc st then none else some st
  | fuel + 1, st =>
    if chunkCond text.length mc st then
      chunkLoop text cs ov mc fuel (chunkStep text cs ov st)
    else some st

/-- `chunk_text(text, chunk_size, overlap, max_chunks)`: truncate the input to
500000 characters, then run the chunking loop from cursor 0 with an empty
chunk list.  `none` means the source loop does not terminate within `fuel`
iterations. -/
def chunk_text (text : PyStr) (cs ov mc fuel : Nat) : Option (List PyStr) :=
  let t := if 500000 < text.length then text.take 500000 else text
  (chunkLoop t cs ov mc fuel { start := 0, chunks := [] }).map ChunkState.chunks

/-! ## Chunk identity (`process_document`) and the store's add semantics -/

/-- The string hashed (with MD5) to obtain a chunk id in `process_document`:
`f"{file_path}_{actual_index}_{chunk[:100]}"`.  MD5 of equal inputs is equal,
so equality of these key strings decides equality of the stored ids
(distinct keys give distinct ids up to MD5 collisions, which are not
modelled). -/
def chunkIdKey (filePath : String) (idx : Nat) (chunk : String) : String :=
  filePath ++ "_" ++ toString idx ++ "_" ++ chunk.take 100

/-- Modelled from the spec: the external vector store's `add` skips a record
whose id is already present (same derived ids overwrite rather than
duplicate; §4.4 create/add contract of the spec, the store itself is an
external collaborator outside `src/`). -/
def storeAdd (st : List (String × String)) (id : String) (doc : String) :
    List (String × String) :=
  if st.any (fun p => p.1 = id) then st else st ++ [(id, doc)]

/-- Add a batch of (id, document) pairs one by one. -/
def storeAddAll (st : List (String × String)) (l : List (String × String)) :
    List (String × String) :=
  l.foldl (fun s p => storeAdd s p.1 p.2) st

/-! ## Embedder (`generate_embeddings`) -/

/-- The external embedding service: `embed(model, task_type, content)`
returns `some vector` on success and `none` when the call raises. -/
structure EmbedService where
  embed : String → String → String → Option (List Int)

/-- The (model, task_type, content) attempts made by `generate_embeddings`,
in order: the primary model and then the fallback model.  Both attempts pass
the literal task type `"retrieval_document"`; the source has no other
embedding entry point, so query-time embedding in `search_documents` issues
exactly these attempts. -/
def embedAttempts (text : String) : List (String × String × String) :=
  [("models/text-embedding-004", "retrieval_document", text),
   ("models/embedding-001", "retrieval_document", text)]

/-- `generate_embeddings`: first successful attempt, or `[]` when both the
primary and the fallback call fail. -/
def generate_embeddings (svc : EmbedService) (text : String) : List Int :=
  match (embedAttempts text).findSome? (fun a => svc.embed a.1 a.2.1 a.2.2) with
  | some v => v
  | none => []

/-! ## Corpus store and environment -/

/-- A record persisted in one of the two Chroma collections: the chunk text,
its metadata (source file name, chunk index, corpus label, source path) and
its embedding vector. -/
structure StoredRecord where
  content : String
  source : String
  chunk_index : Nat
  document_type : String
  file_path : String
  embedding : List Int
deriving DecidableEq

/-- The external world of the processor: the embedding service, the contents
of the two collections, one `Bool` per collection modelling "any store call on
this collection raises", and the file system (`readText` is `none` when
opening the file raises; the PDF and DOCX extractors catch their own
exceptions and return the text collected so far, hence total functions). -/
structure Env where
  svc : EmbedService
  nec : List StoredRecord
  wattmonk : List StoredRecord
  necFail : Bool
  wmFail : Bool
  readText : String → Option String
  pdfText : String → String
  docxText : String → String

/-- A search hit as built by `search_documents` / `keyword_search`: content,
the metadata fields, the (pseudo-)distance, the source collection tag, and
the `keyword_matches` field that only keyword hits carry. -/
structure SearchResult where
  content : String
  metaSource : String
  metaChunkIndex : Nat
  metaDocType : String
  metaFilePath : String
  distance : ℚ
  collection : String
  keywordMatches : Option Nat
deriving DecidableEq

/-- Squared Euclidean distance on integer vectors: the store's native
distance metric in the model. -/
def sqDist (u v : List Int) : Int :=
  ((u.zip v).map (fun p => (p.1 - p.2) * (p.1 - p.2))).sum

/-- Modelled from the spec: the external vector store's
`query(vector, n)` returns the `n` stored records nearest to the query
vector, each paired with its distance, sorted ascending (§4.4; the store is
an external collaborator outside `src/`). -/
def collQuery (recs : List StoredRecord) (emb : List Int) (n : Nat) :
    List (StoredRecord × ℚ) :=
  ((recs.map (fun r => (r, ((sqDist emb r.embedding : Int) : ℚ)))).mergeSort
    (fun a b => decide (a.2 ≤ b.2))).take n

/-- The collection-selection logic shared by `search_documents` and
`keyword_search`: `(name, records, failure flag)` for each collection
matching the optional `document_type` filter. -/
def selectCollections (env : Env) (document_type : Option String) :
    List (String × List StoredRecord × Bool) :=
  (if document_type = none ∨ document_type.map pyLower = some "nec" then
    [("nec", env.nec, env.necFail)] else []) ++
  (if document_type = none ∨ document_type.map pyLower = some "wattmonk" then
    [("wattmonk", env.wattmonk, env.wmFail)] else [])

/-- Build the result dictionary for one semantic hit. -/
def mkSemResult (name : String) (p : StoredRecord × ℚ) : SearchResult :=
  { content := p.1.content, metaSource := p.1.source,
    metaChunkIndex := p.1.chunk_index, metaDocType := p.1.document_type,
    metaFilePath := p.1.file_path, distance := p.2, collection := name,
    keywordMatches := none }

/-- The per-collection body of `search_documents`: a raised store call or an
empty collection contributes nothing (the source catches the exception and
`continue`s, and explicitly skips collections with `count() == 0`); otherwise
the collection is queried for `min(n_results, count)` nearest records, and
each hit is tagged with the collection name. -/
def semFromColl (emb : List Int) (nResults : Nat)
    (entry : String × List StoredRecord × Bool) : List SearchResult :=
  if entry.2.2 then []
  else if entry.2.1.length = 0 then []
  else (collQuery entry.2.1 emb (min nResults entry.2.1.length)).map
    (mkSemResult entry.1)

/-- `search_documents(query, document_type, n_results)`: embed the query
(return `[]` if both embedding attempts fail), gather hits from every
selected collection, sort all hits ascending by distance, and return the
first `n_results`. -/
def search_documents (env : Env) (query : String) (document_type : Option String)
    (nResults : Nat) : List SearchResult :=
  let qe := generate_embeddings env.svc query
  if qe = [] then []
  else
    (((selectCollections env document_type).flatMap (semFromColl qe nResults)).mergeSort
      (fun a b => decide (a.distance ≤ b.distance))).take nResults

/-- Number of keywords occurring as substrings of the lower-cased document. -/
def kwMatchCount (keywords : List String) (doc : String) : Nat :=
  keywords.countP (fun kw => pyContains kw (pyLower doc))

/-- The per-collection body of `keyword_search`: a raised `get()` contributes
nothing; otherwise every stored record is scanned, records with no keyword
match are dropped, and a matching record is scored with pseudo-distance
`1 - match_count / len(keywords)`. -/
def kwFromColl (keywords : List String)
    (entry : String × List StoredRecord × Bool) : List SearchResult :=
  if entry.2.2 then []
  else entry.2.1.filterMap (fun r =>
    let m := kwMatchCount keywords r.content
    if 0 < m then
      some { content := r.content, metaSource := r.source,
             metaChunkIndex := r.chunk_index, metaDocType := r.document_type,
             metaFilePath := r.file_path,
             distance := 1 - ((m : ℚ) / (keywords.length : ℚ)),
             collection := entry.1, keywordMatches := some m }
    else none)

/-- The sort key of `keyword_search`: ascending in
`(-keyword_matches, distance)`, i.e. descending match count first and
ascending pseudo-distance second. -/
def kwKeyLe (a b : SearchResult) : Bool :=
  decide (b.keywordMatches.getD 0 < a.keywordMatches.getD 0) ||
  (decide (a.keywordMatches.getD 0 = b.keywordMatches.getD 0) &&
    decide (a.distance ≤ b.distance))

/-- The ordering `kwKeyLe` encodes, as a proposition. -/
def kwOrder (a b : SearchResult) : Prop :=
  b.keywordMatches.getD 0 < a.keywordMatches.getD 0 ∨
  (a.keywordMatches.getD 0 = b.keywordMatches.getD 0 ∧ a.distance ≤ b.distance)

/-- `keyword_search(query, document_type, n_results)`: lower-case and split
the query keeping tokens longer than two characters, scan every record of
every selected collection, keep records with at least one match, sort by
descending match count then ascending pseudo-distance, and return the first
`n_results`. -/
def keyword_search (env : Env) (query : String) (document_type : Option String)
    (nResults : Nat) : List SearchResult :=
  (((selectCollections env document_type).flatMap (kwFromColl (kwTokens query))).mergeSort
    kwKeyLe).take nResults

/-- The dictionary returned by `get_collection_stats`. -/
structure CollectionStats where
  nec_documents : Nat
  wattmonk_documents : Nat
  total_documents : Nat
deriving DecidableEq

/-- `get_collection_stats`: both counts, or all zeros when either `count()`
call raises (a single `try` wraps both calls). -/
def get_collection_stats (env : Env) : CollectionStats :=
  if env.necFail || env.wmFail then
    { nec_documents := 0, wattmonk_documents := 0, total_documents := 0 }
  else
    { nec_documents := env.nec.length, wattmonk_documents := env.wattmonk.length,
      total_documents := env.nec.length + env.wattmonk.length }

/-! ## Intent classifier (`RAGChatbot.classify_intent`) -/

/-- The NEC vocabulary of `classify_intent`. -/
def nec_keywords : List String :=
  ["nec", "electrical code", "electrical standard", "wiring", "circuit",
   "voltage", "amperage", "grounding", "electrical safety"]

/-- The Wattmonk vocabulary of `classify_intent`. -/
def wattmonk_keywords : List String :=
  ["wattmonk", "company", "service", "solar design", "permitting", "zippy",
   "site survey", "solar", "engineering", "platform", "tool", "automation"]

/-- Number of NEC vocabulary entries occurring in the lower-cased query. -/
def necScoreOf (query : String) : Nat :=
  nec_keywords.countP (fun k => pyContains k (pyLower query))

/-- Number of Wattmonk vocabulary entries occurring in the lower-cased query. -/
def wmScoreOf (query : String) : Nat :=
  wattmonk_keywords.countP (fun k => pyContains k (pyLower query))

/-- The dictionary returned by `classify_intent`. -/
structure IntentResult where
  intent : String
  confidence : Nat
  document_type : Option String
deriving DecidableEq

/-- `classify_intent`: the vocabulary with the strictly higher nonzero count
wins with its count as confidence; otherwise the query is probed for
`"nec"` or `"electrical"` (forcing NEC with confidence 1) and then for
`"wattmonk"` or `"company"` (forcing Wattmonk with confidence 1); otherwise
the intent is general with confidence 0 and no corpus filter. -/
def classify_intent (query : String) : IntentResult :=
  if necScoreOf query > wmScoreOf query ∧ necScoreOf query > 0 then
    { intent := "nec", confidence := necScoreOf query, document_type := some "nec" }
  else if wmScoreOf query > necScoreOf query ∧ wmScoreOf query > 0 then
    { intent := "wattmonk", confidence := wmScoreOf query,
      document_type := some "wattmonk" }
  else if pyContains "nec" (pyLower query) || pyContains "electrical" (pyLower query) then
    { intent := "nec", confidence := 1, document_type := some "nec" }
  else if pyContains "wattmonk" (pyLower query) || pyContains "company" (pyLower query) then
    { intent := "wattmonk", confidence := 1, document_type := some "wattmonk" }
  else
    { intent := "general", confidence := 0, document_type := none }

/-! ## Retrieval merge (`RAGChatbot.retrieve_context`) -/

/-- The specific terms of `retrieve_context`. -/
def specific_terms : List String :=
  ["zippy", "tool", "automation", "machine learning", "diagrams"]

/-- The high-priority terms of `retrieve_context`. -/
def high_priority_terms : List String :=
  ["zippy"]

/-- The trigger decision of `retrieve_context`: keyword search runs when the
lower-cased query contains a high-priority term, or contains a specific term
while semantic search returned fewer than two results. -/
def shouldKeyword (env : Env) (query : String) (document_type : Option String)
    (nResults : Nat) : Bool :=
  high_priority_terms.any (fun t => pyContains t (pyLower query)) ||
  (specific_terms.any (fun t => pyContains t (pyLower query)) &&
    decide ((search_documents env query document_type nResults).length < 2))

/-- The deduplication loop of `retrieve_context`: keep a result only if the
first 100 characters of its content were not seen before. -/
def dedup100 (seen : List String) : List SearchResult → List SearchResult
  | [] => []
  | r :: rs =>
    let key := r.content.take 100
    if key ∈ seen then dedup100 seen rs
    else r :: dedup100 (key :: seen) rs

/-- `retrieve_context(query, document_type, n_results)`: semantic search
always runs; when the keyword trigger fires, keyword results are prepended,
the combined list is deduplicated by 100-character content signature keeping
first occurrences, and the list is truncated to `n_results`; otherwise the
semantic results pass through unchanged. -/
def retrieve_context (env : Env) (query : String) (document_type : Option String)
    (nResults : Nat) : List SearchResult :=
  let results := search_documents env query document_type nResults
  if shouldKeyword env query document_type nResults then
    (dedup100 [] (keyword_search env query document_type nResults ++ results)).take nResults
  else results

/-- The dictionary returned by `search_knowledge_base`. -/
structure KBResult where
  content : String
  source : String
  document_type : String
  relevance_score : ℚ
  chunk_index : Nat
deriving DecidableEq

/-- `search_knowledge_base(query, document_type, n_results)`: format each
retrieved result, with `relevance_score = 1 - distance`. -/
def search_knowledge_base (env : Env) (query : String)
    (document_type : Option String) (nResults : Nat) : List KBResult :=
  (retrieve_context env query document_type nResults).map (fun r =>
    { content := r.content, source := r.metaSource,
      document_type := r.metaDocType, relevance_score := 1 - r.distance,
      chunk_index := r.metaChunkIndex })

/-! ## Ingestion (`process_document`) -/

/-- The text-extraction dispatch of `process_document`: extension-based
(PDF and DOCX extractors never raise and return the text collected so far;
reading a plain file can raise, which the caller catches). -/
def textOf (env : Env) (filePath : String) : Option String :=
  if pyEndsWith (pyLower filePath) ".pdf" then some (env.pdfText filePath)
  else if pyEndsWith (pyLower filePath) ".docx" then some (env.docxText filePath)
  else env.readText filePath

/-- `process_document(file_path, document_type)`: extract text (an exception
while reading yields `False` via the outer handler), return `False` on empty
stripped text, chunk with `max_chunks=200` and the default size 2000 and
overlap 200, then count the chunks that embed successfully and whose
`collection.add` does not raise; the result is `successful_chunks > 0`.
`none` records that the chunking loop did not terminate within `fuel`. -/
def process_document (env : Env) (fuel : Nat) (filePath docType : String) :
    Option Bool :=
  match textOf env filePath with
  | none => some false
  | some text =>
    if pyStrip text.toList = [] then some false
    else
      match chunk_text text.toList 2000 200 200 fuel with
      | none => none
      | some chunks =>
        let collFail := if pyLower docType = "nec" then env.necFail else env.wmFail
        let succ := chunks.countP (fun c =>
          decide (generate_embeddings env.svc (String.mk c) ≠ []) && !collFail)
        some (decide (0 < succ))

/-! ## Model of claim C8's fallback description -/

/-- The classifier as claim C8 describes it: same scoring main path, but the
tie fallback checks a single anchor term per corpus.  `aFirst` selects which
corpus's anchor is probed first (the claim does not fix an order, so both
are allowed below). -/
def claimClassify (aFirst : Bool) (tA tB : String) (query : String) : IntentResult :=
  if necScoreOf query > wmScoreOf query then
    { intent := "nec", confidence := necScoreOf query, document_type := some "nec" }
  else if wmScoreOf query > necScoreOf query then
    { intent := "wattmonk", confidence := wmScoreOf query,
      document_type := some "wattmonk" }
  else if aFirst then
    (if pyContains tA (pyLower query) then
      { intent := "nec", confidence := 1, document_type := some "nec" }
    else if pyContains tB (pyLower query) then
      { intent := "wattmonk", confidence := 1, document_type := some "wattmonk" }
    else { intent := "general", confidence := 0, document_type := none })
  else
    (if pyContains tB (pyLower query) then
      { intent := "wattmonk", confidence := 1, document_type := some "wattmonk" }
    else if pyContains tA (pyLower query) then
      { intent := "nec", confidence := 1, document_type := some "nec" }
    else { intent := "general", confidence := 0, document_type := none })

/-- All contiguous sublists of `l` (with duplicates), used to decide
quantified statements about substrings. -/
def infixes (l : List Char) : List (List Char) :=
  l.tails.flatMap List.inits

/-! ## Concrete fixtures used in counterexamples and witnesses -/

/-- A 150-character text: long enough to yield one chunk, short enough that
the tail iteration of `chunk_text` gets stuck. -/
def t150 : PyStr := List.replicate 150 'a'

/-- The state the chunking loop reaches after one iteration on `t150` with
the default parameters, and then never leaves. -/
def stuck150 : ChunkState := { start := -50, chunks := [t150] }

/-- An environment whose embedding service always fails and whose file
system serves the 150-character text for every path. -/
def env150 : Env :=
  { svc := { embed := fun _ _ _ => none }, nec := [], wattmonk := [],
    necFail := false, wmFail := false,
    readText := fun _ => some (String.mk t150),
    pdfText := fun _ => "", docxText := fun _ => "" }

/-- 101 repetitions of `a`. -/
def a101 : String := String.mk (List.replicate 101 'a')

/-- 100 repetitions of `a` followed by one `b`: differs from `a101` only
beyond the first 100 characters. -/
def a100b : String := String.mk (List.replicate 100 'a' ++ ['b'])

/-- 450-character text whose second chunking window `[200, 400)` contains a
period at absolute position 380, i.e. at relative offset 180 ≥ half the
chunk size 200. -/
def t450 : PyStr := List.replicate 380 'a' ++ '.' :: List.replicate 69 'b'

/-- 301-character text with a period at position 190 = `chunk_size - 10` for
chunk size 200. -/
def t301 : PyStr := List.replicate 190 'a' ++ '.' :: List.replicate 110 'b'

/-- A stored record whose content contains the keywords of the witness
queries. -/
def recSolar : StoredRecord :=
  { content := "Solar panel design guide", source := "s.txt", chunk_index := 0,
    document_type := "nec", file_path := "/s.txt", embedding := [0] }

/-- A stored record with unrelated content. -/
def recOther : StoredRecord :=
  { content := "unrelated text here", source := "o.txt", chunk_index := 1,
    document_type := "nec", file_path := "/o.txt", embedding := [3] }

/-- A healthy environment: embedding always succeeds with the vector `[1]`,
and the `nec` collection holds two records. -/
def envKw : Env :=
  { svc := { embed := fun _ _ _ => some [1] }, nec := [recSolar, recOther],
    wattmonk := [], necFail := false, wmFail := false,
    readText := fun _ => none, pdfText := fun _ => "", docxText := fun _ => "" }

/-- The keyword hit produced for `recSolar` by the query
`"solar panel design"`: all three keywords match, pseudo-distance 0. -/
def resSolar : SearchResult :=
  { content := "Solar panel design guide", metaSource := "s.txt",
    metaChunkIndex := 0, metaDocType := "nec", metaFilePath := "/s.txt",
    distance := 0, collection := "nec", keywordMatches := some 3 }

/-- Counterexample query: reaches the tie fallback with scores 0-0 and is
classified `nec` through the `"electrical"` anchor. -/
def cq1 : String := "electrical"

/-- Counterexample query: tie 1-1, classified `nec` through the `"nec"`
anchor. -/
def cq2 : String := "nec company"

/-- Counterexample query: tie 1-1 (`wiring` vs `company`), classified
`wattmonk` through the `"company"` anchor. -/
def cq3 : String := "echo company wiring"

/-- Counterexample query: tie 1-1 (`voltage` vs `wattmonk`), classified
`wattmonk` through the `"wattmonk"` anchor. -/
def cq5 : String := "wattmonk voltage"

/-- Counterexample query: tie 1-1 (`grounding` vs `platform`), classified
`nec` through the `"electrical"` anchor. -/
def cq6 : String := "electrical grounding platform"

/-- Counterexample query: scores 0-0, no anchor matches, classified
`general`. -/
def cqG : String := "weather watch"

/-- The apostrophe character, spelled by code point. -/
def apoc : Char := Char.ofNat 39

/-- Example query of claim C8 for the NEC corpus. -/
def exA : String := "What is the grounding requirement for circuits?"

/-- Example query of claim C8 for the Wattmonk corpus. -/
def exB : String := "What does Wattmonk" ++ apoc.toString ++ "s platform do?"

/-- Example query of claim C8 for the general intent. -/
def exG : String := "What" ++ apoc.toString ++ "s the weather today?"

/-! ## Helper lemmas -/

theorem isSubL_iff (n h : List Char) : isSubL n h = true ↔ n <:+: h := by
  unfold isSubL
  rw [List.any_eq_true]
  constructor
  · rintro ⟨t, ht, hp⟩
    exact List.infix_iff_prefix_suffix.2
      ⟨t, List.isPrefixOf_iff_prefix.1 hp, (List.mem_tails _ _).1 ht⟩
  · intro hi
    rcases List.infix_iff_prefix_suffix.1 hi with ⟨t, hp, hs⟩
    exact ⟨t, (List.mem_tails _ _).2 hs, List.isPrefixOf_iff_prefix.2 hp⟩

theorem mem_infixes (t l : List Char) : t ∈ infixes l ↔ t <:+: l := by
  unfold infixes
  rw [List.mem_flatMap]
  constructor
  · rintro ⟨s, hs, ht⟩
    exact List.infix_iff_prefix_suffix.2
      ⟨s, (List.mem_inits _ _).1 ht, (List.mem_tails _ _).1 hs⟩
  · intro hi
    rcases List.infix_iff_prefix_suffix.1 hi with ⟨u, hp, hs⟩
    exact ⟨u, (List.mem_tails _ _).2 hs, (List.mem_inits _ _).2 hp⟩

theorem chunkStep_t150_first :
    chunkStep t150 2000 200 { start := 0, chunks := [] } = stuck150 := by decide

theorem chunkStep_t150_stuck : chunkStep t150 2000 200 stuck150 = stuck150 := by decide

theorem chunkLoop_t150_stuck (mc : Nat) (h : 1 < mc) :
    ∀ fuel, chunkLoop t150 2000 200 mc fuel stuck150 = none := by
  have hc : chunkCond t150.length mc stuck150 := by
    refine ⟨by decide, ?_⟩
    have h1 : stuck150.chunks.length = 1 := by decide
    omega
  intro fuel
  induction fuel with
  | zero => simp [chunkLoop, if_pos hc]
  | succ n ih => simp [chunkLoop, if_pos hc, chunkStep_t150_stuck, ih]

theorem chunk_text_t150_none (mc : Nat) (h : 1 < mc) (fuel : Nat) :
    chunk_text t150 2000 200 mc fuel = none := by
  have hlen : ¬ 500000 < t150.length := by decide
  have hc0 : chunkCond t150.length mc { start := 0, chunks := [] } := by
    refine ⟨by decide, ?_⟩
    have h1 : (ChunkState.chunks { start := 0, chunks := [] }).length = 0 := by decide
    omega
  unfold chunk_text
  rw [if_neg hlen]
  cases fuel with
  | zero => simp [chunkLoop, if_pos hc0]
  | succ n =>
    simp only [chunkLoop, if_pos hc0, chunkStep_t150_first]
    rw [chunkLoop_t150_stuck mc h n]
    rfl

/-! ## C1 -/

/-- C1: the claim states that for chunk size ≥ 1 and 0 ≤ overlap < chunk
size each iteration of `chunk_text` strictly advances the cursor, and that a
guard keeps the cursor advancing even when overlap ≥ chunk size.  The source
has no such guard and the claim fails at the default parameters
(chunk size 2000, overlap 200 < 2000): on a 150-character text the cursor
moves from 0 to -50 in the first iteration (not a strict advance) and the
loop then repeats the state `start = -50` forever, so `chunk_text` never
terminates, whatever fuel it is given. -/
theorem C1_cursor_does_not_advance :
    (chunkStep t150 2000 200 { start := 0, chunks := [] }).start = -50 ∧
    ∀ fuel, chunk_text t150 2000 200 500 fuel = none := by
  constructor
  · rw [chunkStep_t150_first]; decide
  · exact fun fuel => chunk_text_t150_none 500 (by omega) fuel

/-! ## C9 -/

/-- C9: the claim states that at search time the query-embedding call passes
a query-oriented task type distinct from the document-oriented one used at
ingestion.  In the source, `search_documents` embeds the query through the
same `generate_embeddings`, whose two attempts both hardcode the task type
`"retrieval_document"`: the task types sent for a query are exactly the
task types sent for an ingested chunk, so no distinct query-oriented hint
exists.  (The code contradicts the spec's stated requirement: code bug.) -/
theorem C9_task_type_identical :
    (∀ q : String, (embedAttempts q).map (fun a => a.2.1) =
      ["retrieval_document", "retrieval_document"]) ∧
    (∀ q chunk : String, (embedAttempts q).map (fun a => a.2.1) =
      (embedAttempts chunk).map (fun a => a.2.1)) := by
  exact ⟨fun _ => rfl, fun _ _ => rfl⟩

/-! ## C2 -/

theorem process_document_env150_none (fuel : Nat) :
    process_document env150 fuel "doc.txt" "nec" = none := by
  have htext : textOf env150 "doc.txt" = some (String.mk t150) := by
    unfold textOf
    rw [if_neg (by decide), if_neg (by decide)]
    rfl
  have hstrip : ¬ pyStrip (String.mk t150).toList = [] := by decide
  unfold process_document
  rw [htext]
  simp only [if_neg hstrip]
  have hch : chunk_text (String.mk t150).toList 2000 200 200 fuel = none :=
    chunk_text_t150_none 200 (by omega) fuel
  rw [hch]

/-- C2 counterexample: the claim "every public operation is total" fails
because `process_document` does not terminate on some inputs: with a file
system serving a 150-character text file, no amount of fuel makes
`process_document` return — the chunking loop repeats the same cursor
forever (see C1). -/
theorem C2_counterexample :
    ¬ ∀ (env : Env) (filePath docType : String),
        ∃ fuel, (process_document env fuel filePath docType).isSome = true := by
  intro h
  obtain ⟨fuel, hf⟩ := h env150 "doc.txt" "nec"
  rw [process_document_env150_none fuel] at hf
  simp at hf

theorem generate_embeddings_fail (svc : EmbedService) (t : String)
    (h : ∀ m tt c, svc.embed m tt c = none) : generate_embeddings svc t = [] := by
  simp [generate_embeddings, embedAttempts, List.findSome?, h]

theorem selectCollections_mem (env : Env) (dt : Option String)
    (e : String × List StoredRecord × Bool) (he : e ∈ selectCollections env dt) :
    e = ("nec", env.nec, env.necFail) ∨ e = ("wattmonk", env.wattmonk, env.wmFail) := by
  unfold selectCollections at he
  rcases List.mem_append.1 he with h | h
  · left
    split at h
    · simpa using h
    · simp at h
  · right
    split at h
    · simpa using h
    · simp at h

theorem keyword_search_allfail (env : Env) (q : String) (dt : Option String)
    (n : Nat) (h1 : env.necFail = true) (h2 : env.wmFail = true) :
    keyword_search env q dt n = [] := by
  have hnil : (selectCollections env dt).flatMap (kwFromColl (kwTokens q)) = [] := by
    rw [List.flatMap_eq_nil_iff]
    intro e he
    rcases selectCollections_mem env dt e he with rfl | rfl <;>
      simp [kwFromColl, h1, h2]
  unfold keyword_search
  rw [hnil]
  simp

theorem search_documents_embed_fail (env : Env) (q : String) (dt : Option String)
    (n : Nat) (h : generate_embeddings env.svc q = []) :
    search_documents env q dt n = [] := by
  unfold search_documents
  rw [h]
  simp

/-- C2 amended: every listed search/classify/stats operation absorbs the
modelled external failures and returns its safe default (no exception
escapes), and `process_document` likewise returns a Boolean whenever text
extraction fails outright or its chunking loop terminates; but totality of
`process_document` over all inputs fails because that loop need not
terminate (see the counterexample). -/
theorem C2_operations_fail_closed :
    (∀ (env : Env) (q : String) (dt : Option String) (n : Nat),
      (∀ m tt c, env.svc.embed m tt c = none) → search_documents env q dt n = []) ∧
    (∀ (env : Env) (q : String) (dt : Option String) (n : Nat),
      env.necFail = true → env.wmFail = true → keyword_search env q dt n = []) ∧
    (∀ (env : Env) (q : String) (dt : Option String) (n : Nat),
      (∀ m tt c, env.svc.embed m tt c = none) → env.necFail = true →
      env.wmFail = true → search_knowledge_base env q dt n = []) ∧
    (∀ q, (classify_intent q).intent ∈ (["nec", "wattmonk", "general"] : List String)) ∧
    (∀ env : Env, env.necFail = true →
      get_collection_stats env =
        { nec_documents := 0, wattmonk_documents := 0, total_documents := 0 }) ∧
    (∀ (env : Env) (filePath docType : String) (fuel : Nat) (text : String),
      textOf env filePath = some text →
      (chunk_text text.toList 2000 200 200 fuel).isSome = true →
      (process_document env fuel filePath docType).isSome = true) ∧
    (∀ (env : Env) (filePath docType : String) (fuel : Nat),
      textOf env filePath = none →
      process_document env fuel filePath docType = some false) := by
  refine ⟨?_, ?_, ?_, ?_, ?_, ?_, ?_⟩
  · intro env q dt n h
    exact search_documents_embed_fail env q dt n (generate_embeddings_fail env.svc q h)
  · exact keyword_search_allfail
  · intro env q dt n h h1 h2
    have hs := search_documents_embed_fail env q dt n (generate_embeddings_fail env.svc q h)
    have hk := keyword_search_allfail env q dt n h1 h2
    unfold search_knowledge_base retrieve_context
    cases hsk : shouldKeyword env q dt n <;> simp [hs, hk, dedup100]
  · intro q
    unfold classify_intent
    split
    · simp
    · split
      · simp
      · split
        · simp
        · split <;> simp
  · intro env h
    simp [get_collection_stats, h]
  · intro env filePath docType fuel text ht hch
    simp only [process_document, ht]
    by_cases hstrip : pyStrip text.toList = []
    · rw [if_pos hstrip]; rfl
    · rw [if_neg hstrip]
      cases hc : chunk_text text.toList 2000 200 200 fuel with
      | none => rw [hc] at hch; simp at hch
      | some chunks => simp only [hc, Option.isSome_some]
  · intro env filePath docType fuel ht
    simp only [process_document, ht]

/-- Witness for C2: the fail-closed behaviour at a concrete environment
whose embedding service always fails. -/
theorem C2_operations_fail_closed_witness :
    search_documents env150 "any query" none 5 = [] :=
  C2_operations_fail_closed.1 env150 "any query" none 5 (fun _ _ _ => rfl)

/-! ## C3 -/

theorem string_append_cancel_left (p a b : String) (h : p ++ a = p ++ b) : a = b := by
  have hd := congrArg String.data h
  rw [String.data_append, String.data_append] at hd
  cases a with
  | mk da =>
    cases b with
    | mk db =>
      have : da = db := List.append_cancel_left hd
      rw [this]

theorem storeAdd_any_preserve (st : List (String × String)) (id doc k : String)
    (h : st.any (fun p => p.1 = k) = true) :
    (storeAdd st id doc).any (fun p => p.1 = k) = true := by
  unfold storeAdd
  split
  · exact h
  · simp only [List.any_append, h, Bool.true_or]

theorem storeAdd_self (st : List (String × String)) (id doc : String) :
    (storeAdd st id doc).any (fun p => p.1 = id) = true := by
  unfold storeAdd
  split
  · assumption
  · simp

theorem storeAddAll_any_preserve (l : List (String × String))
    (st : List (String × String)) (k : String)
    (h : st.any (fun p => p.1 = k) = true) :
    (storeAddAll st l).any (fun p => p.1 = k) = true := by
  induction l generalizing st with
  | nil => exact h
  | cons x xs ih => exact ih (storeAdd st x.1 x.2) (storeAdd_any_preserve st x.1 x.2 k h)

theorem storeAddAll_has (l : List (String × String)) (st : List (String × String))
    (p : String × String) (hp : p ∈ l) :
    (storeAddAll st l).any (fun q => q.1 = p.1) = true := by
  induction l generalizing st with
  | nil => cases hp
  | cons x xs ih =>
    rcases List.mem_cons.1 hp with rfl | hmem
    · exact storeAddAll_any_preserve xs (storeAdd st p.1 p.2)
        p.1 (storeAdd_self st p.1 p.2)
    · exact ih (storeAdd st x.1 x.2) hmem

theorem storeAdd_of_present (st : List (String × String)) (id doc : String)
    (h : st.any (fun p => p.1 = id) = true) : storeAdd st id doc = st := by
  unfold storeAdd
  rw [if_pos h]

theorem storeAddAll_of_present (l : List (String × String))
    (S : List (String × String))
    (h : ∀ p ∈ l, S.any (fun q => q.1 = p.1) = true) : storeAddAll S l = S := by
  induction l with
  | nil => rfl
  | cons x xs ih =>
    have hx := h x (List.mem_cons_self x xs)
    show storeAddAll (storeAdd S x.1 x.2) xs = S
    rw [storeAdd_of_present S x.1 x.2 hx]
    exact ih (fun p hp => h p (List.mem_cons_of_mem x hp))

/-- C3 counterexample: the claim states that chunks with different text at
the same path and index always get different identifiers.  The id hashes
only the first 100 characters of the chunk: `a101` and `a100b` differ (at
position 100) yet produce the same hashed key, hence the same MD5 id. -/
theorem C3_counterexample :
    a101 ≠ a100b ∧ chunkIdKey "doc.pdf" 0 a101 = chunkIdKey "doc.pdf" 0 a100b := by
  constructor
  · intro h
    exact absurd (congrArg String.data h) (by decide)
  · decide

/-- C3 amended: the stored id key is a deterministic function of the
document path, the sequence index and the **first 100 characters** of the
chunk text — identical first-100-character prefixes give identical keys
(so re-ingestion is idempotent: re-adding the same id-keyed batch leaves
the store unchanged), distinct first-100-character prefixes give distinct
keys at the same path and index, but chunks differing only beyond character
100 collide (see the counterexample). -/
theorem C3_id_first100 :
    (∀ (fp : String) (i : Nat) (c₁ c₂ : String), c₁.take 100 = c₂.take 100 →
      chunkIdKey fp i c₁ = chunkIdKey fp i c₂) ∧
    (∀ (fp : String) (i : Nat) (c₁ c₂ : String), c₁.take 100 ≠ c₂.take 100 →
      chunkIdKey fp i c₁ ≠ chunkIdKey fp i c₂) ∧
    (∀ (st l : List (String × String)),
      storeAddAll (storeAddAll st l) l = storeAddAll st l) := by
  refine ⟨?_, ?_, ?_⟩
  · intro fp i c₁ c₂ h
    unfold chunkIdKey
    rw [h]
  · intro fp i c₁ c₂ h hk
    exact h (string_append_cancel_left (fp ++ "_" ++ toString i ++ "_") _ _ (by
      simpa [chunkIdKey, String.append_assoc] using hk))
  · intro st l
    exact storeAddAll_of_present l (storeAddAll st l)
      (fun p hp => storeAddAll_has l st p hp)

/-- Witness for C3: the amended theorem applied at concrete chunk texts. -/
theorem C3_id_first100_witness :
    chunkIdKey "f" 2 a101 = chunkIdKey "f" 2 a100b ∧
    chunkIdKey "f" 2 "abc" ≠ chunkIdKey "f" 2 "abd" :=
  ⟨C3_id_first100.1 "f" 2 a101 a100b (by decide),
   C3_id_first100.2.1 "f" 2 "abc" "abd" (by decide)⟩

/-! ## C4 -/

/-- C4: the claim's "in particular" case holds — with chunk size 200 and a
period at position 190 = `chunk_size - 10`, the first chunk of `t301` ends
immediately after the period (191 characters, not 200).  The general claim
fails for any window after the first: the source compares the
window-relative index of the break point against the absolute cursor
(`break_point > start + chunk_size // 2`), so in `t450` the second window
`[200, 400)` contains a period at relative offset 180 ≥ 100 = half the
chunk size, yet the produced second chunk is the whole window
`text[200:400]` (200 characters running past the period) instead of ending
just after the period as the claim requires. -/
theorem C4_break_point_relative_vs_absolute :
    chunk_text t301 200 0 500 10 =
      some [List.replicate 190 'a' ++ ['.'], List.replicate 110 'b'] ∧
    rfind (pySlice t450 200 400) '.' = 180 ∧
    chunk_text t450 200 0 500 10 =
      some [List.replicate 200 'a',
        List.replicate 180 'a' ++ '.' :: List.replicate 19 'b'] := by
  refine ⟨by decide, by decide, by decide⟩

/-! ## C5 -/

theorem search_documents_all_empty (env : Env) (q : String) (dt : Option String)
    (n : Nat) (h : ∀ e ∈ selectCollections env dt, e.2.1 = []) :
    search_documents env q dt n = [] := by
  by_cases hq : generate_embeddings env.svc q = []
  · exact search_documents_embed_fail env q dt n hq
  · simp only [search_documents]
    rw [if_neg hq]
    have hnil : (selectCollections env dt).flatMap
        (semFromColl (generate_embeddings env.svc q) n) = [] := by
      rw [List.flatMap_eq_nil_iff]
      intro e he
      have he1 : e.2.1 = [] := h e he
      cases hf : e.2.2 <;> simp [semFromColl, hf, he1]
    rw [hnil]
    simp

theorem selectCollections_nec (env : Env) :
    selectCollections env (some "nec") = [("nec", env.nec, env.necFail)] := by
  unfold selectCollections
  rw [if_pos (by right; decide), if_neg (by decide)]
  simp

/-- C5: semantic search fails closed on embedding failure; it returns the
empty list when every selected collection is empty (in particular on an
empty collection); a single non-empty healthy collection yields exactly
`min k count` results (not `k`); the output is sorted ascending by
distance; and every hit is tagged with one of the two collection names. -/
theorem C5_semantic_search :
    (∀ (env : Env) (q : String) (dt : Option String) (n : Nat),
      generate_embeddings env.svc q = [] → search_documents env q dt n = []) ∧
    (∀ (env : Env) (q : String) (dt : Option String) (n : Nat),
      (∀ e ∈ selectCollections env dt, e.2.1 = []) →
      search_documents env q dt n = []) ∧
    (∀ (env : Env) (q : String) (n : Nat),
      env.necFail = false → env.nec ≠ [] → generate_embeddings env.svc q ≠ [] →
      (search_documents env q (some "nec") n).length = min n env.nec.length) ∧
    (∀ (env : Env) (q : String) (dt : Option String) (n : Nat),
      (search_documents env q dt n).Pairwise (fun a b => a.distance ≤ b.distance)) ∧
    (∀ (env : Env) (q : String) (dt : Option String) (n : Nat) (r : SearchResult),
      r ∈ search_documents env q dt n →
      r.collection = "nec" ∨ r.collection = "wattmonk") := by
  refine ⟨search_documents_embed_fail, search_documents_all_empty, ?_, ?_, ?_⟩
  · intro env q n hfail hne hq
    simp only [search_documents]
    rw [if_neg hq, selectCollections_nec]
    have hL : env.nec.length ≠ 0 := fun h => hne (List.length_eq_zero.1 h)
    have hsem : semFromColl (generate_embeddings env.svc q) n
        ("nec", env.nec, env.necFail) =
        (collQuery env.nec (generate_embeddings env.svc q)
          (min n env.nec.length)).map (mkSemResult "nec") := by
      simp [semFromColl, hfail, hL]
    simp only [List.flatMap_cons, List.flatMap_nil, List.append_nil, hsem]
    rw [List.length_take, List.length_mergeSort, List.length_map]
    unfold collQuery
    rw [List.length_take, List.length_mergeSort, List.length_map]
    omega
  · intro env q dt n
    by_cases hq : generate_embeddings env.svc q = []
    · rw [search_documents_embed_fail env q dt n hq]
      exact List.Pairwise.nil
    · simp only [search_documents]
      rw [if_neg hq]
      refine List.Pairwise.sublist (List.take_sublist _ _) ?_
      have hs := @List.sorted_mergeSort SearchResult
        (fun a b : SearchResult => decide (a.distance ≤ b.distance))
        (fun a b c hab hbc => by
          simp only [decide_eq_true_eq] at *
          exact le_trans hab hbc)
        (fun a b => by
          simp only [Bool.or_eq_true, decide_eq_true_eq]
          exact le_total _ _)
        ((selectCollections env dt).flatMap
          (semFromColl (generate_embeddings env.svc q) n))
      exact hs.imp (by simp only [decide_eq_true_eq]; exact fun h => h)
  · intro env q dt n r hr
    by_cases hq : generate_embeddings env.svc q = []
    · rw [search_documents_embed_fail env q dt n hq] at hr
      cases hr
    · simp only [search_documents] at hr
      rw [if_neg hq] at hr
      have hr2 := List.mem_mergeSort.1 ((List.take_sublist _ _).subset hr)
      rcases List.mem_flatMap.1 hr2 with ⟨e, he, hre⟩
      unfold semFromColl at hre
      split at hre
      · cases hre
      · split at hre
        · cases hre
        · rcases List.mem_map.1 hre with ⟨p, _, hp⟩
          have hcoll : r.collection = e.1 := by rw [← hp]; rfl
          rcases selectCollections_mem env dt e he with rfl | rfl
          · left; exact hcoll
          · right; exact hcoll

/-- Witness for C5: with `k = 5` and a healthy two-record collection, the
search returns exactly `min 5 2 = 2` results. -/
theorem C5_semantic_search_witness :
    (search_documents envKw "q" (some "nec") 5).length = min 5 envKw.nec.length :=
  C5_semantic_search.2.2.1 envKw "q" 5 rfl (by decide) (by decide)

/-! ## C6 -/

theorem kwKeyLe_iff (a b : SearchResult) : kwKeyLe a b = true ↔ kwOrder a b := by
  unfold kwKeyLe kwOrder
  simp [Bool.or_eq_true, Bool.and_eq_true, decide_eq_true_eq]

theorem keyword_search_mem (env : Env) (q : String) (dt : Option String)
    (n : Nat) (r : SearchResult) (hr : r ∈ keyword_search env q dt n) :
    ∃ m, r.keywordMatches = some m ∧ 0 < m ∧
      r.distance = 1 - (m : ℚ) / ((kwTokens q).length : ℚ) := by
  unfold keyword_search at hr
  have hr2 := List.mem_mergeSort.1 ((List.take_sublist _ _).subset hr)
  rcases List.mem_flatMap.1 hr2 with ⟨e, _, hre⟩
  unfold kwFromColl at hre
  split at hre
  · cases hre
  · rcases List.mem_filterMap.1 hre with ⟨rec, _, heq⟩
    simp only at heq
    split at heq
    · rename_i hm
      refine ⟨kwMatchCount (kwTokens q) rec.content, ?_, hm, ?_⟩
      · rw [← Option.some_inj.1 heq]
      · rw [← Option.some_inj.1 heq]
    · cases heq

/-- C6: the keywords are exactly the whitespace-separated lower-cased query
tokens longer than 2 characters; every returned record has a positive match
count (zero-match records are excluded); a record matching every keyword has
pseudo-distance `1 - m/m = 0`; the output is sorted by descending match
count then ascending pseudo-distance; and at most `k` results are
returned. -/
theorem C6_keyword_search :
    (∀ (q w : String), w ∈ kwTokens q ↔ (w ∈ pySplit (pyLower q) ∧ 2 < w.length)) ∧
    (∀ (env : Env) (q : String) (dt : Option String) (n : Nat) (r : SearchResult),
      r ∈ keyword_search env q dt n → 0 < r.keywordMatches.getD 0) ∧
    (∀ (env : Env) (q : String) (dt : Option String) (n : Nat) (r : SearchResult),
      r ∈ keyword_search env q dt n →
      r.keywordMatches = some (kwTokens q).length → r.distance = 0) ∧
    (∀ (env : Env) (q : String) (dt : Option String) (n : Nat),
      (keyword_search env q dt n).Pairwise kwOrder) ∧
    (∀ (env : Env) (q : String) (dt : Option String) (n : Nat),
      (keyword_search env q dt n).length ≤ n) := by
  refine ⟨?_, ?_, ?_, ?_, ?_⟩
  · intro q w
    simp [kwTokens, List.mem_filter]
  · intro env q dt n r hr
    rcases keyword_search_mem env q dt n r hr with ⟨m, hm, hpos, _⟩
    rw [hm]
    exact hpos
  · intro env q dt n r hr hfull
    rcases keyword_search_mem env q dt n r hr with ⟨m, hm, hpos, hd⟩
    rw [hm] at hfull
    have hmlen : m = (kwTokens q).length := Option.some_inj.1 hfull
    have hlen : ((kwTokens q).length : ℚ) ≠ 0 := by
      have : (0 : Nat) < (kwTokens q).length := by omega
      exact_mod_cast Nat.pos_iff_ne_zero.1 this
    rw [hd, hmlen, div_self hlen]
    ring
  · intro env q dt n
    unfold keyword_search
    refine List.Pairwise.sublist (List.take_sublist _ _) ?_
    have hs := @List.sorted_mergeSort SearchResult kwKeyLe
      (fun a b c hab hbc => by
        rw [kwKeyLe_iff] at *
        rcases hab with h1 | ⟨h1, h1d⟩ <;> rcases hbc with h2 | ⟨h2, h2d⟩
        · exact Or.inl (lt_trans h2 h1)
        · exact Or.inl (by omega)
        · exact Or.inl (by omega)
        · exact Or.inr ⟨by omega, le_trans h1d h2d⟩)
      (fun a b => by
        simp only [Bool.or_eq_true, kwKeyLe_iff]
        unfold kwOrder
        rcases lt_trichotomy (a.keywordMatches.getD 0) (b.keywordMatches.getD 0)
          with h | h | h
        · exact Or.inr (Or.inl h)
        · rcases le_total a.distance b.distance with hd | hd
          · exact Or.inl (Or.inr ⟨h, hd⟩)
          · exact Or.inr (Or.inr ⟨h.symm, hd⟩)
        · exact Or.inl (Or.inl h))
      ((selectCollections env dt).flatMap (kwFromColl (kwTokens q)))
    exact hs.imp (fun h => (kwKeyLe_iff _ _).1 h)
  · intro env q dt n
    unfold keyword_search
    have := List.length_take n
      (((selectCollections env dt).flatMap (kwFromColl (kwTokens q))).mergeSort kwKeyLe)
    omega

theorem kwFromColl_nec_eval :
    kwFromColl ["solar", "panel", "design"] ("nec", [recSolar, recOther], false) =
      [resSolar] := by
  have h2 : kwMatchCount ["solar", "panel", "design"] recSolar.content = 3 := by decide
  have h3 : kwMatchCount ["solar", "panel", "design"] recOther.content = 0 := by decide
  unfold kwFromColl
  simp only [List.filterMap_cons, List.filterMap_nil, h2, h3]
  norm_num [resSolar, recSolar]

theorem keyword_search_envKw_eval :
    keyword_search envKw "solar panel design" none 3 = [resSolar] := by
  have hkw : kwTokens "solar panel design" = ["solar", "panel", "design"] := by decide
  have hsel : selectCollections envKw none =
      [("nec", [recSolar, recOther], false), ("wattmonk", [], false)] := by decide
  have hwm : kwFromColl ["solar", "panel", "design"] ("wattmonk", [], false) = [] := by
    decide
  unfold keyword_search
  rw [hkw, hsel]
  simp only [List.flatMap_cons, List.flatMap_nil, List.append_nil,
    kwFromColl_nec_eval, hwm]
  rw [List.mergeSort_singleton]
  rfl

/-- Witness for C6: the record containing all three keywords of
`"solar panel design"` is returned with pseudo-distance 0. -/
theorem C6_keyword_search_witness : resSolar.distance = 0 :=
  C6_keyword_search.2.2.1 envKw "solar panel design" none 3 resSolar
    (by rw [keyword_search_envKw_eval]; exact List.mem_singleton_self resSolar)
    (by decide)

/-! ## C7 -/

theorem dedup100_not_seen (l : List SearchResult) :
    ∀ (seen : List String) (r : SearchResult),
      r ∈ dedup100 seen l → ¬ r.content.take 100 ∈ seen := by
  induction l with
  | nil => intro seen r hr; cases hr
  | cons x xs ih =>
    intro seen r hr
    by_cases hk : x.content.take 100 ∈ seen
    · rw [show dedup100 seen (x :: xs) = dedup100 seen xs from by
        simp only [dedup100, if_pos hk]] at hr
      exact ih seen r hr
    · rw [show dedup100 seen (x :: xs) =
          x :: dedup100 (x.content.take 100 :: seen) xs from by
        simp only [dedup100, if_neg hk]] at hr
      rcases List.mem_cons.1 hr with rfl | hmem
      · exact hk
      · intro hin
        exact ih _ r hmem (List.mem_cons_of_mem _ hin)

theorem dedup100_pairwise (l : List SearchResult) :
    ∀ seen : List String, (dedup100 seen l).Pairwise
      (fun a b => a.content.take 100 ≠ b.content.take 100) := by
  induction l with
  | nil => intro seen; exact List.Pairwise.nil
  | cons x xs ih =>
    intro seen
    by_cases hk : x.content.take 100 ∈ seen
    · rw [show dedup100 seen (x :: xs) = dedup100 seen xs from by
        simp only [dedup100, if_pos hk]]
      exact ih seen
    · rw [show dedup100 seen (x :: xs) =
          x :: dedup100 (x.content.take 100 :: seen) xs from by
        simp only [dedup100, if_neg hk]]
      refine List.Pairwise.cons ?_ (ih _)
      intro b hb
      have := dedup100_not_seen xs _ b hb
      intro hEq
      exact this (by rw [← hEq]; exact List.mem_cons_self _ _)

theorem dedup100_sublist (l : List SearchResult) :
    ∀ seen : List String, (dedup100 seen l).Sublist l := by
  induction l with
  | nil => intro seen; exact List.Sublist.refl []
  | cons x xs ih =>
    intro seen
    by_cases hk : x.content.take 100 ∈ seen
    · rw [show dedup100 seen (x :: xs) = dedup100 seen xs from by
        simp only [dedup100, if_pos hk]]
      exact (ih seen).cons x
    · rw [show dedup100 seen (x :: xs) =
          x :: dedup100 (x.content.take 100 :: seen) xs from by
        simp only [dedup100, if_neg hk]]
      exact (ih _).cons₂ x

/-- C7: keyword search supplements semantic search exactly when the
lower-cased query contains a high-priority term, or contains a specific term
while semantic search returned fewer than 2 results; when it does not run,
semantic results pass through unchanged; when it runs, the keyword results
are placed before the semantic ones, the combined list is deduplicated by
the first 100 content characters keeping first occurrences (the output
never contains two entries sharing a 100-character signature and is a
subsequence of the merged list), and the result is truncated to `k`. -/
theorem C7_retrieval_merge :
    (∀ (env : Env) (q : String) (dt : Option String) (n : Nat),
      shouldKeyword env q dt n = false →
      retrieve_context env q dt n = search_documents env q dt n) ∧
    (∀ (env : Env) (q : String) (dt : Option String) (n : Nat),
      shouldKeyword env q dt n = true →
      retrieve_context env q dt n =
        (dedup100 [] (keyword_search env q dt n ++ search_documents env q dt n)).take n) ∧
    (∀ (seen : List String) (l : List SearchResult),
      (dedup100 seen l).Pairwise (fun a b => a.content.take 100 ≠ b.content.take 100)) ∧
    (∀ (seen : List String) (l : List SearchResult), (dedup100 seen l).Sublist l) ∧
    (∀ (env : Env) (q : String) (dt : Option String) (n : Nat),
      shouldKeyword env q dt n = true ↔
        ((∃ t ∈ high_priority_terms, pyContains t (pyLower q) = true) ∨
         ((∃ t ∈ specific_terms, pyContains t (pyLower q) = true) ∧
           (search_documents env q dt n).length < 2))) := by
  refine ⟨?_, ?_, ?_, ?_, ?_⟩
  · intro env q dt n h
    simp only [retrieve_context, h]
    simp
  · intro env q dt n h
    simp only [retrieve_context, h]
    simp
  · intro seen l
    exact dedup100_pairwise l seen
  · intro seen l
    exact dedup100_sublist l seen
  · intro env q dt n
    simp [shouldKeyword, List.any_eq_true, Bool.or_eq_true, Bool.and_eq_true,
      decide_eq_true_eq]

/-- Witness for C7: on a query containing neither high-priority nor specific
terms the semantic results pass through unchanged. -/
theorem C7_retrieval_merge_witness :
    retrieve_context envKw "hello" none 3 = search_documents envKw "hello" none 3 :=
  C7_retrieval_merge.1 envKw "hello" none 3 (by decide)

/-! ## C8 -/

theorem subL_L1 (t : List Char)
    (h1 : isSubL t cq1.toList = true) (h2 : isSubL t cq2.toList = true) :
    isSubL t cq3.toList = true := by
  have hm : t ∈ infixes cq1.toList := (mem_infixes t _).2 ((isSubL_iff t _).1 h1)
  have hd : ∀ u ∈ infixes cq1.toList,
      (!(isSubL u cq2.toList) || isSubL u cq3.toList) = true := by decide
  have h := hd t hm
  rw [h2] at h
  simpa using h

theorem subL_L2 (t : List Char)
    (h3 : isSubL t cq3.toList = true) (h5 : isSubL t cq5.toList = true) :
    isSubL t cq2.toList = true ∨ isSubL t cqG.toList = true ∨
      isSubL t cq6.toList = true := by
  have hm : t ∈ infixes cq3.toList := (mem_infixes t _).2 ((isSubL_iff t _).1 h3)
  have hd : ∀ u ∈ infixes cq3.toList,
      (!(isSubL u cq5.toList) ||
        (isSubL u cq2.toList || isSubL u cqG.toList || isSubL u cq6.toList)) = true := by
    decide
  have h := hd t hm
  rw [h5] at h
  simp only [Bool.not_true, Bool.false_or, Bool.or_eq_true] at h
  tauto

theorem ite_result_first (p q : Bool) (a b c r : IntentResult)
    (h : r = if p = true then a else if q = true then b else c)
    (hrb : r ≠ b) (hrc : r ≠ c) : p = true ∧ r = a := by
  by_cases hp : p = true
  · rw [if_pos hp] at h
    exact ⟨hp, h⟩
  · rw [if_neg hp] at h
    by_cases hq : q = true
    · rw [if_pos hq] at h
      exact absurd h hrb
    · rw [if_neg hq] at h
      exact absurd h hrc

theorem ite_result_second (p q : Bool) (a b c r : IntentResult)
    (h : r = if p = true then a else if q = true then b else c)
    (hra : r ≠ a) (hrc : r ≠ c) : p = false ∧ q = true := by
  by_cases hp : p = true
  · rw [if_pos hp] at h
    exact absurd h hra
  · rw [if_neg hp] at h
    refine ⟨Bool.not_eq_true p ▸ hp, ?_⟩
    by_cases hq : q = true
    · exact hq
    · rw [if_neg hq] at h
      exact absurd h hrc

theorem ite_result_third (p q : Bool) (a b c r : IntentResult)
    (h : r = if p = true then a else if q = true then b else c)
    (hra : r ≠ a) (hrb : r ≠ b) : p = false ∧ q = false := by
  by_cases hp : p = true
  · rw [if_pos hp] at h
    exact absurd h hra
  · rw [if_neg hp] at h
    by_cases hq : q = true
    · rw [if_pos hq] at h
      exact absurd h hrb
    · exact ⟨Bool.not_eq_true p ▸ hp, Bool.not_eq_true q ▸ hq⟩

theorem claimClassify_tie (aFirst : Bool) (tA tB q : String)
    (heq : necScoreOf q = wmScoreOf q) :
    claimClassify aFirst tA tB q =
      if aFirst = true then
        (if pyContains tA (pyLower q) = true then
          { intent := "nec", confidence := 1, document_type := some "nec" }
        else if pyContains tB (pyLower q) = true then
          { intent := "wattmonk", confidence := 1, document_type := some "wattmonk" }
        else { intent := "general", confidence := 0, document_type := none })
      else
        (if pyContains tB (pyLower q) = true then
          { intent := "wattmonk", confidence := 1, document_type := some "wattmonk" }
        else if pyContains tA (pyLower q) = true then
          { intent := "nec", confidence := 1, document_type := some "nec" }
        else { intent := "general", confidence := 0, document_type := none }) := by
  unfold claimClassify
  rw [if_neg (by omega), if_neg (by omega)]

/-- C8 counterexample: the claim describes the tie fallback as checking two
anchor terms, **one per corpus**.  No choice of one anchor per corpus (in
either probing order) reproduces `classify_intent`, which checks two
anchors per corpus (`"nec"`/`"electrical"` and `"wattmonk"`/`"company"`):
the six tie queries `cq1`, `cq2`, `cq3`, `cq5`, `cq6`, `cqG` rule out every
assignment. -/
theorem C8_counterexample :
    ¬ ∃ (aFirst : Bool) (tA tB : String),
        ∀ q, classify_intent q = claimClassify aFirst tA tB q := by
  rintro ⟨aFirst, tA, tB, h⟩
  have r1 := h cq1
  have r2 := h cq2
  have r3 := h cq3
  have r5 := h cq5
  have r6 := h cq6
  have rG := h cqG
  rw [show classify_intent cq1 =
    { intent := "nec", confidence := 1, document_type := some "nec" } from by decide,
    claimClassify_tie aFirst tA tB cq1 (by decide)] at r1
  rw [show classify_intent cq2 =
    { intent := "nec", confidence := 1, document_type := some "nec" } from by decide,
    claimClassify_tie aFirst tA tB cq2 (by decide)] at r2
  rw [show classify_intent cq3 =
    { intent := "wattmonk", confidence := 1, document_type := some "wattmonk" } from by
      decide,
    claimClassify_tie aFirst tA tB cq3 (by decide)] at r3
  rw [show classify_intent cq5 =
    { intent := "wattmonk", confidence := 1, document_type := some "wattmonk" } from by
      decide,
    claimClassify_tie aFirst tA tB cq5 (by decide)] at r5
  rw [show classify_intent cq6 =
    { intent := "nec", confidence := 1, document_type := some "nec" } from by decide,
    claimClassify_tie aFirst tA tB cq6 (by decide)] at r6
  rw [show classify_intent cqG =
    { intent := "general", confidence := 0, document_type := none } from by decide,
    claimClassify_tie aFirst tA tB cqG (by decide)] at rG
  cases aFirst with
  | true =>
    rw [if_pos rfl] at r1 r2 r3
    have hA1 : pyContains tA (pyLower cq1) = true :=
      (ite_result_first _ _ _ _ _ _ r1 (by decide) (by decide)).1
    have hA2 : pyContains tA (pyLower cq2) = true :=
      (ite_result_first _ _ _ _ _ _ r2 (by decide) (by decide)).1
    have hA3 : pyContains tA (pyLower cq3) = false :=
      (ite_result_second _ _ _ _ _ _ r3 (by decide) (by decide)).1
    have s1 : isSubL tA.toList cq1.toList = true := by
      rw [show pyLower cq1 = cq1 from by decide] at hA1
      exact hA1
    have s2 : isSubL tA.toList cq2.toList = true := by
      rw [show pyLower cq2 = cq2 from by decide] at hA2
      exact hA2
    have s3 : isSubL tA.toList cq3.toList = false := by
      rw [show pyLower cq3 = cq3 from by decide] at hA3
      exact hA3
    rw [subL_L1 tA.toList s1 s2] at s3
    cases s3
  | false =>
    rw [if_neg (by simp)] at r1 r2 r3 r5 r6 rG
    have hB3 : pyContains tB (pyLower cq3) = true :=
      (ite_result_first _ _ _ _ _ _ r3 (by decide) (by decide)).1
    have hB5 : pyContains tB (pyLower cq5) = true :=
      (ite_result_first _ _ _ _ _ _ r5 (by decide) (by decide)).1
    have hB2 : pyContains tB (pyLower cq2) = false :=
      (ite_result_second _ _ _ _ _ _ r2 (by decide) (by decide)).1
    have hB6 : pyContains tB (pyLower cq6) = false :=
      (ite_result_second _ _ _ _ _ _ r6 (by decide) (by decide)).1
    have hBG : pyContains tB (pyLower cqG) = false :=
      (ite_result_third _ _ _ _ _ _ rG (by decide) (by decide)).1
    have s3 : isSubL tB.toList cq3.toList = true := by
      rw [show pyLower cq3 = cq3 from by decide] at hB3
      exact hB3
    have s5 : isSubL tB.toList cq5.toList = true := by
      rw [show pyLower cq5 = cq5 from by decide] at hB5
      exact hB5
    have s2 : isSubL tB.toList cq2.toList = false := by
      rw [show pyLower cq2 = cq2 from by decide] at hB2
      exact hB2
    have s6 : isSubL tB.toList cq6.toList = false := by
      rw [show pyLower cq6 = cq6 from by decide] at hB6
      exact hB6
    have sG : isSubL tB.toList cqG.toList = false := by
      rw [show pyLower cqG = cqG from by decide] at hBG
      exact hBG
    rcases subL_L2 tB.toList s3 s5 with hx | hx | hx
    · rw [hx] at s2; cases s2
    · rw [hx] at sG; cases sG
    · rw [hx] at s6; cases s6

/-- C8 amended: `classify_intent` counts case-insensitive substring matches
of the query against the two fixed vocabularies; the vocabulary with the
strictly higher count wins with confidence equal to its match count; on a
tie (including both counts zero) it falls back to **two** anchor terms per
corpus — `"nec"` or `"electrical"` forces NEC (checked first), else
`"wattmonk"` or `"company"` forces Wattmonk, each with confidence 1; if
nothing matches it returns the general intent with confidence 0 and no
corpus filter.  The three example classifications of the claim hold. -/
theorem C8_classify_intent :
    (∀ q, wmScoreOf q < necScoreOf q →
      classify_intent q =
        { intent := "nec", confidence := necScoreOf q, document_type := some "nec" }) ∧
    (∀ q, necScoreOf q < wmScoreOf q →
      classify_intent q =
        { intent := "wattmonk", confidence := wmScoreOf q,
          document_type := some "wattmonk" }) ∧
    (∀ q, necScoreOf q = wmScoreOf q →
      (pyContains "nec" (pyLower q) || pyContains "electrical" (pyLower q)) = true →
      classify_intent q =
        { intent := "nec", confidence := 1, document_type := some "nec" }) ∧
    (∀ q, necScoreOf q = wmScoreOf q →
      (pyContains "nec" (pyLower q) || pyContains "electrical" (pyLower q)) = false →
      (pyContains "wattmonk" (pyLower q) || pyContains "company" (pyLower q)) = true →
      classify_intent q =
        { intent := "wattmonk", confidence := 1, document_type := some "wattmonk" }) ∧
    (∀ q, necScoreOf q = wmScoreOf q →
      (pyContains "nec" (pyLower q) || pyContains "electrical" (pyLower q)) = false →
      (pyContains "wattmonk" (pyLower q) || pyContains "company" (pyLower q)) = false →
      classify_intent q =
        { intent := "general", confidence := 0, document_type := none }) ∧
    classify_intent exA =
      { intent := "nec", confidence := 2, document_type := some "nec" } ∧
    classify_intent exB =
      { intent := "wattmonk", confidence := 2, document_type := some "wattmonk" } ∧
    classify_intent exG =
      { intent := "general", confidence := 0, document_type := none } := by
  refine ⟨?_, ?_, ?_, ?_, ?_, by decide, by decide, by decide⟩
  · intro q h
    unfold classify_intent
    rw [if_pos ⟨h, by omega⟩]
  · intro q h
    unfold classify_intent
    rw [if_neg (by rintro ⟨h1, -⟩; omega), if_pos ⟨h, by omega⟩]
  · intro q heq hb
    unfold classify_intent
    rw [if_neg (by rintro ⟨h1, -⟩; omega), if_neg (by rintro ⟨h1, -⟩; omega),
      if_pos hb]
  · intro q heq hb hw
    unfold classify_intent
    rw [if_neg (by rintro ⟨h1, -⟩; omega), if_neg (by rintro ⟨h1, -⟩; omega),
      if_neg (by simp [hb]), if_pos hw]
  · intro q heq hb hw
    unfold classify_intent
    rw [if_neg (by rintro ⟨h1, -⟩; omega), if_neg (by rintro ⟨h1, -⟩; omega),
      if_neg (by simp [hb]), if_neg (by simp [hw])]

/-- Witness for C8: the strict-winner branch applied to a concrete query in
which only NEC vocabulary occurs. -/
theorem C8_classify_intent_witness :
    classify_intent "grounding circuit check" =
      { intent := "nec", confidence := necScoreOf "grounding circuit check",
        document_type := some "nec" } :=
  C8_classify_intent.1 "grounding circuit check" (by decide)

/-! ## C10 -/

/-- C10: when no whitespace-separated token of the query is longer than 2
characters, the keyword list is empty, every record's match count is 0 and
is filtered out before the pseudo-distance division is reached, and
`keyword_search` returns the empty list for every store state. -/
theorem C10_keyword_search_short_tokens (env : Env) (q : String)
    (dt : Option String) (n : Nat)
    (h : ∀ w ∈ pySplit (pyLower q), w.length ≤ 2) :
    keyword_search env q dt n = [] := by
  have hk : kwTokens q = [] := by
    unfold kwTokens
    rw [List.filter_eq_nil_iff]
    intro w hw
    simp only [decide_eq_true_eq]
    exact Nat.not_lt.2 (h w hw)
  have hfl : (selectCollections env dt).flatMap (kwFromColl (kwTokens q)) = [] := by
    rw [hk, List.flatMap_eq_nil_iff]
    intro e he
    unfold kwFromColl
    split
    · rfl
    · simp [kwMatchCount]
  unfold keyword_search
  rw [hfl]
  simp

/-- Witness for C10: a query of tokens of length at most 2 on a concrete
populated store. -/
theorem C10_keyword_search_short_tokens_witness :
    keyword_search envKw "a b cd" none 3 = [] :=
  C10_keyword_search_short_tokens envKw "a b cd" none 3 (by decide)
